import Mathlib

/-!
Shallow embedding of the FastAPI application in `main.py` (and the earlier
`main_pt_one.py`): pydantic model declarations become Lean structures, the
pydantic field-constraint checks become executable validators over a JSON-like
value type, request handlers become pure functions returning `Except`, and the
FastAPI `response_model` filtering becomes an explicit projection to an ordered
association list (the Lean image of a Python `dict`).
-/

set_option autoImplicit false

/-- JSON-like values as they appear in request and response bodies. -/
inductive Value where
  | str (s : String)
  | int (n : Int)
  | bool (b : Bool)
  | null
  deriving DecidableEq, Repr

/-- A Python `dict` with string keys, kept as an ordered association list
(Python dicts preserve insertion order). -/
abbrev Obj := List (String × Value)

/-- Key lookup in a `dict` (first occurrence). -/
def getVal (o : Obj) (k : String) : Option Value :=
  match o with
  | [] => none
  | (k', v) :: rest => if k' = k then some v else getVal rest k

/-- The keys of a `dict`, in order. -/
def dictKeys (o : Obj) : List String :=
  o.map Prod.fst

/-- Replace an entry's value by `d2`'s value for the same key, when `d2` has
one. -/
def updEntry (d2 : Obj) (kv : String × Value) : String × Value :=
  match getVal d2 kv.1 with
  | some v => (kv.1, v)
  | none => kv

/-- Python `d1.update(d2)`: keys already in `d1` keep their position but take
`d2`'s value; keys only in `d2` are appended in `d2`'s order. -/
def dictUpdate (d1 d2 : Obj) : Obj :=
  d1.map (updEntry d2) ++ d2.filter (fun kv => (getVal d1 kv.1).isNone)

/-- The kinds of per-field validation failure produced by the pydantic layer. -/
inductive ErrKind where
  | missing
  | typeMismatch
  | outOfRange
  | lengthViolation
  | invalidEnum
  deriving DecidableEq, Repr

/-- A validation failure record: the offending field and the violated
constraint class. -/
structure VError where
  field : String
  kind : ErrKind
  deriving DecidableEq, Repr

/-- Numeric bounds of a pydantic `Field` (`gt` / `ge` / `lt` / `le`), each
optional. -/
structure IntBounds where
  gt : Option Int
  ge : Option Int
  lt : Option Int
  le : Option Int
  deriving DecidableEq, Repr

/-- An integer satisfies every declared bound: `gt`/`lt` are exclusive,
`ge`/`le` inclusive. -/
def checkIntBounds (b : IntBounds) (v : Int) : Bool :=
  (match b.gt with | some x => decide (x < v) | none => true)
  && (match b.ge with | some x => decide (x ≤ v) | none => true)
  && (match b.lt with | some x => decide (v < x) | none => true)
  && (match b.le with | some x => decide (v ≤ x) | none => true)

/-- String length bounds of a pydantic `Field` (`min_length` / `max_length`),
each optional. -/
structure StrBounds where
  minLength : Option Nat
  maxLength : Option Nat
  deriving DecidableEq, Repr

/-- A string's length lies within the declared (inclusive) length bounds. -/
def checkStrLen (b : StrBounds) (s : String) : Bool :=
  (match b.minLength with | some n => decide (n ≤ s.length) | none => true)
  && (match b.maxLength with | some n => decide (s.length ≤ n) | none => true)

/-- Validate a required string field: absent is a missing-field failure,
a non-string value is a type mismatch (pydantic v1 also stringifies numbers,
modelled for `int` payloads), and a present string must satisfy the length
bounds. -/
def vReqStr (field : String) (b : StrBounds) (o : Obj) : Except (List VError) String :=
  match getVal o field with
  | none => .error [⟨field, .missing⟩]
  | some (.str s) => if checkStrLen b s then .ok s else .error [⟨field, .lengthViolation⟩]
  | some (.int n) =>
      if checkStrLen b (toString n) then .ok (toString n)
      else .error [⟨field, .lengthViolation⟩]
  | some _ => .error [⟨field, .typeMismatch⟩]

/-- Validate a required integer field: absent is a missing-field failure, a
numeric string is coerced to an integer (pydantic v1), any other type is a
mismatch, and the value must satisfy the numeric bounds. -/
def vReqInt (field : String) (b : IntBounds) (o : Obj) : Except (List VError) Int :=
  match getVal o field with
  | none => .error [⟨field, .missing⟩]
  | some (.int n) => if checkIntBounds b n then .ok n else .error [⟨field, .outOfRange⟩]
  | some (.str s) =>
      match s.toInt? with
      | some n => if checkIntBounds b n then .ok n else .error [⟨field, .outOfRange⟩]
      | none => .error [⟨field, .typeMismatch⟩]
  | some _ => .error [⟨field, .typeMismatch⟩]

/-- The `HairColor` enumeration of `main.py`. -/
inductive HairColor where
  | white
  | brown
  | black
  | blonde
  | red
  deriving DecidableEq, Repr

/-- Serialize a `HairColor` to its declared string literal. -/
def HairColor.toStr : HairColor → String
  | .white => "white"
  | .brown => "brown"
  | .black => "black"
  | .blonde => "blonde"
  | .red => "red"

/-- Recover a `HairColor` from a string literal, if it is one of the declared
members. -/
def HairColor.ofStr? (s : String) : Option HairColor :=
  if s = "white" then some .white
  else if s = "brown" then some .brown
  else if s = "black" then some .black
  else if s = "blonde" then some .blonde
  else if s = "red" then some .red
  else none

/-- Validate an `Optional[HairColor]` field with default `None`: absent or
`null` yields the default, a member literal yields the member, a non-member
string is an invalid-enumeration failure, and any other type a mismatch. -/
def vOptHairColor (field : String) (o : Obj) : Except (List VError) (Option HairColor) :=
  match getVal o field with
  | none => .ok none
  | some .null => .ok none
  | some (.str s) =>
      match HairColor.ofStr? s with
      | some c => .ok (some c)
      | none => .error [⟨field, .invalidEnum⟩]
  | some _ => .error [⟨field, .invalidEnum⟩]

/-- Validate an `Optional[bool]` field with default `None`. -/
def vOptBool (field : String) (o : Obj) : Except (List VError) (Option Bool) :=
  match getVal o field with
  | none => .ok none
  | some .null => .ok none
  | some (.bool b) => .ok (some b)
  | some _ => .error [⟨field, .typeMismatch⟩]

/-- The errors carried by a per-field result (empty on success). -/
def errsOf {α : Type} (r : Except (List VError) α) : List VError :=
  match r with
  | .ok _ => []
  | .error es => es

/-- Bounds declared on `PersonBase.first_name` and `last_name`:
`min_length=1, max_length=50`. -/
def nameBounds : StrBounds := ⟨some 1, some 50⟩

/-- Bounds declared on `PersonBase.age`: `gt=0, le=115`. -/
def ageBounds : IntBounds := ⟨some 0, none, none, some 115⟩

/-- Bounds declared on `Person.age` in `main_pt_one.py`: `gt=0, lt=115`. -/
def agePtOneBounds : IntBounds := ⟨some 0, none, some 115, none⟩

/-- Bounds declared on `Person.password`: `min_length=8`. -/
def passwordBounds : StrBounds := ⟨some 8, none⟩

/-- The validated `Person` model of `main.py` (`PersonBase` plus the
`password` field appended by the `Person` subclass). -/
structure Person where
  first_name : String
  last_name : String
  age : Int
  hair_color : Option HairColor
  is_married : Option Bool
  password : String
  deriving DecidableEq, Repr

/-- The `PersonOut` response model: exactly the `PersonBase` fields, without
`password`. -/
structure PersonOut where
  first_name : String
  last_name : String
  age : Int
  hair_color : Option HairColor
  is_married : Option Bool
  deriving DecidableEq, Repr

/-- Drop the `password` field, as FastAPI does when serializing a `Person`
through `response_model=PersonOut`. -/
def personToOut (p : Person) : PersonOut :=
  ⟨p.first_name, p.last_name, p.age, p.hair_color, p.is_married⟩

/-- Validate a request body against the `Person` model: every field is checked
independently and the failures are aggregated in field-declaration order. -/
def validatePerson (o : Obj) : Except (List VError) Person :=
  match vReqStr "first_name" nameBounds o, vReqStr "last_name" nameBounds o,
      vReqInt "age" ageBounds o, vOptHairColor "hair_color" o,
      vOptBool "is_married" o, vReqStr "password" passwordBounds o with
  | .ok fn, .ok ln, .ok a, .ok hc, .ok im, .ok pw => .ok ⟨fn, ln, a, hc, im, pw⟩
  | r1, r2, r3, r4, r5, r6 =>
      .error (errsOf r1 ++ errsOf r2 ++ errsOf r3 ++ errsOf r4 ++ errsOf r5 ++ errsOf r6)

/-- Serialize an `Option Bool` to JSON. -/
def boolValue (b : Option Bool) : Value :=
  match b with
  | none => .null
  | some x => .bool x

/-- Serialize an `Option HairColor` to JSON (the enum member's value). -/
def hairColorValue (c : Option HairColor) : Value :=
  match c with
  | none => .null
  | some x => .str x.toStr

/-- Serialize a validated `Person` to a `dict`, fields in declaration order
(the base fields first, then the subclass's `password`). -/
def person_dict (p : Person) : Obj :=
  [("first_name", .str p.first_name), ("last_name", .str p.last_name),
   ("age", .int p.age), ("hair_color", hairColorValue p.hair_color),
   ("is_married", boolValue p.is_married), ("password", .str p.password)]

/-- Serialize a `PersonOut` to a `dict`, fields in declaration order. -/
def personOut_dict (p : PersonOut) : Obj :=
  [("first_name", .str p.first_name), ("last_name", .str p.last_name),
   ("age", .int p.age), ("hair_color", hairColorValue p.hair_color),
   ("is_married", boolValue p.is_married)]

/-- Validate a response entity against the `PersonOut` model, as FastAPI's
`response_model` machinery does before serializing. -/
def validatePersonOut (o : Obj) : Except (List VError) PersonOut :=
  match vReqStr "first_name" nameBounds o, vReqStr "last_name" nameBounds o,
      vReqInt "age" ageBounds o, vOptHairColor "hair_color" o,
      vOptBool "is_married" o with
  | .ok fn, .ok ln, .ok a, .ok hc, .ok im => .ok ⟨fn, ln, a, hc, im⟩
  | r1, r2, r3, r4, r5 =>
      .error (errsOf r1 ++ errsOf r2 ++ errsOf r3 ++ errsOf r4 ++ errsOf r5)

/-- Project an entity through the `PersonOut` output schema: validate it
against `PersonOut` and emit exactly that model's fields, in declaration
order. -/
def projectPersonOut (o : Obj) : Except (List VError) Obj :=
  (validatePersonOut o).map personOut_dict

/-- The `POST /person/new` operation: validate the body against `Person`,
return the person filtered through `response_model=PersonOut` (the handler
returns `person` unchanged; FastAPI serializes it through `PersonOut`,
dropping `password`). -/
def create_person (body : Obj) : Except (List VError) Obj :=
  (validatePerson body).map (fun p => personOut_dict (personToOut p))

/-- The validated `Location` model (three unconstrained string fields). -/
structure Location where
  city : String
  state : String
  country : String
  deriving DecidableEq, Repr

/-- Serialize a validated `Location` to a `dict`, fields in declaration
order. -/
def location_dict (l : Location) : Obj :=
  [("city", .str l.city), ("state", .str l.state), ("country", .str l.country)]

/-- Validate a request body against the `Location` model. -/
def validateLocation (o : Obj) : Except (List VError) Location :=
  match vReqStr "city" ⟨none, none⟩ o, vReqStr "state" ⟨none, none⟩ o,
      vReqStr "country" ⟨none, none⟩ o with
  | .ok c, .ok s, .ok co => .ok ⟨c, s, co⟩
  | r1, r2, r3 => .error (errsOf r1 ++ errsOf r2 ++ errsOf r3)

/-- The `PUT /person/{person_id}` operation on validated inputs: the handler
computes `person.dict()`, then `results.update(location.dict())`, and returns
the merged dict unfiltered (no `response_model` is declared). `person_id` is
only printed by the handler. -/
def update_person (person_id : Int) (person : Person) (location : Location) : Obj :=
  let _ := person_id
  dictUpdate (person_dict person) (location_dict location)

/-- An `HTTPException` raised by a handler: a status code and a detail
message. -/
structure HTTPException where
  status_code : Nat
  detail : String
  deriving DecidableEq, Repr

/-- The fixed fake datastore `persons = [1, 2, 3, 4, 5]`. -/
def persons : List Int := [1, 2, 3, 4, 5]

/-- The `GET /person/detail/{person_id}` operation on a path-validated id:
raise a 404 `HTTPException` when the id is not in `persons`, otherwise return
`{person_id: "It exists!"}` (an int-keyed singleton dict). -/
def show_person_by_id (person_id : Int) : Except HTTPException (List (Int × String)) :=
  if person_id ∉ persons then
    .error ⟨404, "¡This person doesn't exist!"⟩
  else
    .ok [(person_id, "It exists!")]

/-- The `LoginOut` response model: a `username` with `max_length=20` and a
`message` defaulting to `"Login Succesfully!"`. -/
structure LoginOut where
  username : String
  message : String
  deriving DecidableEq, Repr

/-- Construct `LoginOut(username=username)`: pydantic validates the supplied
`username` against `max_length=20` at construction; `message` takes its
default. -/
def mkLoginOut (username : String) : Except (List VError) LoginOut :=
  if checkStrLen ⟨none, some 20⟩ username then
    .ok ⟨username, "Login Succesfully!"⟩
  else
    .error [⟨"username", .lengthViolation⟩]

/-- Serialize a `LoginOut` to a `dict`, fields in declaration order. -/
def loginOut_dict (l : LoginOut) : Obj :=
  [("username", .str l.username), ("message", .str l.message)]

/-- The `POST /login` operation: both form fields bind without constraints;
the handler returns `LoginOut(username=username)`, never using `password`. -/
def login (username password : String) : Except (List VError) Obj :=
  let _ := password
  (mkLoginOut username).map loginOut_dict

/-- Bounds declared on the `contact` form fields `first_name` and
`last_name`: `min_length=1, max_length=20`. -/
def contactNameBounds : StrBounds := ⟨some 1, some 20⟩

/-- Bounds declared on the `contact` form field `message`: `min_length=20`. -/
def messageBounds : StrBounds := ⟨some 20, none⟩

/-- Per-field validation failures of the `POST /contact` form, aggregated in
declaration order. `EmailStr` is checked by an external library, so the email
acceptance predicate is a parameter of the embedding. -/
def contactFormErrors (emailOk : String → Bool)
    (first_name last_name email message : String) : List VError :=
  (if checkStrLen contactNameBounds first_name then [] else [⟨"first_name", .lengthViolation⟩])
  ++ (if checkStrLen contactNameBounds last_name then [] else [⟨"last_name", .lengthViolation⟩])
  ++ (if emailOk email then [] else [⟨"email", .typeMismatch⟩])
  ++ (if checkStrLen messageBounds message then [] else [⟨"message", .lengthViolation⟩])

/-- The `POST /contact` operation: when every form field validates, the
handler prints the `ads` cookie and returns the optional `user_agent` header
value (JSON `null` when the header was absent). -/
def contact (emailOk : String → Bool)
    (first_name last_name email message : String)
    (user_agent ads : Option String) : Except (List VError) (Option String) :=
  let _ := ads
  let errs := contactFormErrors emailOk first_name last_name email message
  if errs.isEmpty then .ok user_agent else .error errs

/-- The scenario body from the spec: Miguel's create-person request. -/
def miguelBody : Obj :=
  [("first_name", .str "Miguel"), ("last_name", .str "Torres"),
   ("age", .int 25), ("password", .str "12345678")]

/-- The scenario output from the spec: Miguel's projected response. -/
def miguelOut : Obj :=
  [("first_name", .str "Miguel"), ("last_name", .str "Torres"),
   ("age", .int 25), ("hair_color", .null), ("is_married", .null)]

/-! General lemmas about `dict` lookup and Python's `dict.update`. -/

theorem getVal_nil (k : String) : getVal [] k = none := rfl

theorem getVal_cons (k' : String) (v : Value) (rest : Obj) (k : String) :
    getVal ((k', v) :: rest) k = if k' = k then some v else getVal rest k := rfl

theorem getVal_append_some {a : Obj} (b : Obj) {k : String} {v : Value}
    (h : getVal a k = some v) : getVal (a ++ b) k = some v := by
  induction a with
  | nil => exact Option.noConfusion h
  | cons kv rest ih =>
      obtain ⟨k', v'⟩ := kv
      rw [getVal_cons] at h
      rw [List.cons_append, getVal_cons]
      by_cases hk : k' = k
      · rw [if_pos hk] at h ⊢
        exact h
      · rw [if_neg hk] at h ⊢
        exact ih h

theorem getVal_append_none {a : Obj} (b : Obj) {k : String}
    (h : getVal a k = none) : getVal (a ++ b) k = getVal b k := by
  induction a with
  | nil => rfl
  | cons kv rest ih =>
      obtain ⟨k', v'⟩ := kv
      rw [getVal_cons] at h
      rw [List.cons_append, getVal_cons]
      by_cases hk : k' = k
      · rw [if_pos hk] at h
        exact Option.noConfusion h
      · rw [if_neg hk] at h ⊢
        exact ih h

theorem updEntry_fst (d2 : Obj) (kv : String × Value) :
    (updEntry d2 kv).1 = kv.1 := by
  unfold updEntry
  rcases getVal d2 kv.1 with _ | w <;> rfl

theorem getVal_map_updEntry_hit {d2 : Obj} {k : String} {w : Value}
    (h2 : getVal d2 k = some w) :
    ∀ {d1 : Obj} {v : Value}, getVal d1 k = some v →
      getVal (d1.map (updEntry d2)) k = some w := by
  intro d1
  induction d1 with
  | nil => exact fun h1 => Option.noConfusion h1
  | cons kv rest ih =>
      intro v h1
      obtain ⟨k', v'⟩ := kv
      rw [getVal_cons] at h1
      rw [List.map_cons]
      by_cases hk : k' = k
      · subst hk
        have hu : updEntry d2 (k', v') = (k', w) := by
          unfold updEntry
          rw [h2]
        rw [hu, getVal_cons, if_pos rfl]
      · rw [if_neg hk] at h1
        rcases hu : updEntry d2 (k', v') with ⟨ku, vu⟩
        have hku : ku = k' := by
          have := updEntry_fst d2 (k', v')
          rw [hu] at this
          exact this
        rw [getVal_cons, if_neg (fun hkk => hk (hku ▸ hkk))]
        exact ih h1

theorem getVal_map_updEntry_miss {d2 : Obj} {k : String}
    (h2 : getVal d2 k = none) :
    ∀ {d1 : Obj} {v : Value}, getVal d1 k = some v →
      getVal (d1.map (updEntry d2)) k = some v := by
  intro d1
  induction d1 with
  | nil => exact fun h1 => Option.noConfusion h1
  | cons kv rest ih =>
      intro v h1
      obtain ⟨k', v'⟩ := kv
      rw [getVal_cons] at h1
      rw [List.map_cons]
      by_cases hk : k' = k
      · subst hk
        rw [if_pos rfl] at h1
        have hu : updEntry d2 (k', v') = (k', v') := by
          unfold updEntry
          rw [h2]
        rw [hu, getVal_cons, if_pos rfl]
        exact h1
      · rw [if_neg hk] at h1
        rcases hu : updEntry d2 (k', v') with ⟨ku, vu⟩
        have hku : ku = k' := by
          have := updEntry_fst d2 (k', v')
          rw [hu] at this
          exact this
        rw [getVal_cons, if_neg (fun hkk => hk (hku ▸ hkk))]
        exact ih h1

theorem getVal_map_updEntry_none {d2 : Obj} {k : String} :
    ∀ {d1 : Obj}, getVal d1 k = none → getVal (d1.map (updEntry d2)) k = none := by
  intro d1
  induction d1 with
  | nil => exact fun _ => rfl
  | cons kv rest ih =>
      intro h1
      obtain ⟨k', v'⟩ := kv
      rw [getVal_cons] at h1
      rw [List.map_cons]
      by_cases hk : k' = k
      · rw [if_pos hk] at h1
        exact Option.noConfusion h1
      · rw [if_neg hk] at h1
        rcases hu : updEntry d2 (k', v') with ⟨ku, vu⟩
        have hku : ku = k' := by
          have := updEntry_fst d2 (k', v')
          rw [hu] at this
          exact this
        rw [getVal_cons, if_neg (fun hkk => hk (hku ▸ hkk))]
        exact ih h1

theorem getVal_filter_of_absent {d1 : Obj} (d2 : Obj) {k : String}
    (h : getVal d1 k = none) :
    getVal (d2.filter (fun kv => (getVal d1 kv.1).isNone)) k = getVal d2 k := by
  induction d2 with
  | nil => rfl
  | cons kv rest ih =>
      obtain ⟨k', v'⟩ := kv
      rw [List.filter_cons]
      by_cases hk : k' = k
      · subst hk
        simp only [h, Option.isNone_none, if_pos]
        rw [getVal_cons, getVal_cons, if_pos rfl, if_pos rfl]
      · rcases hd : getVal d1 k' with _ | u
        · simp only [hd, Option.isNone_none, if_pos]
          rw [getVal_cons, getVal_cons, if_neg hk, if_neg hk]
          exact ih
        · simp only [hd, Option.isNone_some, Bool.false_eq_true, if_false]
          rw [getVal_cons, if_neg hk]
          exact ih

theorem getVal_filter_of_present {d1 : Obj} (d2 : Obj) {k : String} {v : Value}
    (h : getVal d1 k = some v) :
    getVal (d2.filter (fun kv => (getVal d1 kv.1).isNone)) k = none := by
  induction d2 with
  | nil => rfl
  | cons kv rest ih =>
      obtain ⟨k', v'⟩ := kv
      rw [List.filter_cons]
      by_cases hk : k' = k
      · subst hk
        simp only [h, Option.isNone_some, Bool.false_eq_true, if_false]
        exact ih
      · rcases hd : getVal d1 k' with _ | u
        · simp only [hd, Option.isNone_none, if_pos]
          rw [getVal_cons, if_neg hk]
          exact ih
        · simp only [hd, Option.isNone_some, Bool.false_eq_true, if_false]
          exact ih

theorem getVal_dictUpdate (d1 d2 : Obj) (k : String) :
    getVal (dictUpdate d1 d2) k =
      match getVal d2 k with
      | some w => some w
      | none => getVal d1 k := by
  unfold dictUpdate
  rcases h1 : getVal d1 k with _ | v
  · rw [getVal_append_none _ (getVal_map_updEntry_none h1),
      getVal_filter_of_absent d2 h1]
    rcases getVal d2 k with _ | w <;> rfl
  · rcases h2 : getVal d2 k with _ | w
    · rw [getVal_append_some _ (getVal_map_updEntry_miss h2 h1)]
    · rw [getVal_append_some _ (getVal_map_updEntry_hit h2 h1)]

/-- C1: for every valid `Person` request body, the create-person operation's
response contains exactly the `PersonOut` fields `first_name`, `last_name`,
`age`, `hair_color`, `is_married` (in declaration order) and never a
`password` key; in particular Miguel's request body yields exactly the
five-field response with `hair_color` and `is_married` null and no
`password` key. -/
theorem create_person_response_hides_password :
    (∀ (body : Obj) (p : Person), validatePerson body = .ok p →
      create_person body = .ok (personOut_dict (personToOut p)) ∧
      dictKeys (personOut_dict (personToOut p)) =
        ["first_name", "last_name", "age", "hair_color", "is_married"] ∧
      "password" ∉ dictKeys (personOut_dict (personToOut p))) ∧
    create_person miguelBody = .ok miguelOut ∧
    getVal miguelOut "password" = none := by
  refine ⟨?_, rfl, rfl⟩
  intro body p h
  refine ⟨?_, rfl, by simp [dictKeys, personOut_dict]⟩
  rw [create_person, h]
  rfl

/-- Witness for C1 at the spec's scenario input: Miguel's body validates, the
response is exactly the projected five-field dict, and it has no `password`
key. -/
theorem create_person_response_hides_password_witness :
    create_person miguelBody =
      .ok (personOut_dict (personToOut ⟨"Miguel", "Torres", 25, none, none, "12345678"⟩)) ∧
    "password" ∉ dictKeys
      (personOut_dict (personToOut ⟨"Miguel", "Torres", 25, none, none, "12345678"⟩)) := by
  have h := create_person_response_hides_password.1 miguelBody
    ⟨"Miguel", "Torres", 25, none, none, "12345678"⟩ (by rfl)
  exact ⟨h.1, h.2.2⟩

/-- C2: against the `age` bounds `gt=0, le=115` of `PersonBase.age`, the
values `0` and `116` fail with an out-of-range failure while `1` and `115`
pass (both at the field validator and through full `Person` validation), and
in general a value exactly at an inclusive bound (`ge`/`le`) passes while a
value exactly at an exclusive bound (`gt`/`lt`) fails. -/
theorem age_inclusive_exclusive_bounds :
    vReqInt "age" ageBounds [("age", .int 0)] = .error [⟨"age", .outOfRange⟩] ∧
    vReqInt "age" ageBounds [("age", .int 116)] = .error [⟨"age", .outOfRange⟩] ∧
    vReqInt "age" ageBounds [("age", .int 1)] = .ok 1 ∧
    vReqInt "age" ageBounds [("age", .int 115)] = .ok 115 ∧
    validatePerson [("first_name", .str "Miguel"), ("last_name", .str "Torres"),
        ("age", .int 0), ("password", .str "12345678")]
      = .error [⟨"age", .outOfRange⟩] ∧
    validatePerson [("first_name", .str "Miguel"), ("last_name", .str "Torres"),
        ("age", .int 116), ("password", .str "12345678")]
      = .error [⟨"age", .outOfRange⟩] ∧
    validatePerson [("first_name", .str "Miguel"), ("last_name", .str "Torres"),
        ("age", .int 115), ("password", .str "12345678")]
      = .ok ⟨"Miguel", "Torres", 115, none, none, "12345678"⟩ ∧
    checkIntBounds agePtOneBounds 114 = true ∧
    checkIntBounds agePtOneBounds 115 = false ∧
    (∀ v : Int,
      checkIntBounds ⟨none, some v, none, none⟩ v = true ∧
      checkIntBounds ⟨none, none, none, some v⟩ v = true ∧
      checkIntBounds ⟨some v, none, none, none⟩ v = false ∧
      checkIntBounds ⟨none, none, some v, none⟩ v = false) := by
  refine ⟨rfl, rfl, rfl, rfl, rfl, rfl, rfl, rfl, rfl, ?_⟩
  intro v
  refine ⟨?_, ?_, ?_, ?_⟩ <;> simp [checkIntBounds]

/-- C3: for every path-validated id greater than 0, `show_person_by_id`
raises the 404 not-found `HTTPException` exactly when the id is outside the
fixed set `persons = [1,2,3,4,5]`; id `123` is rejected and id `3` found. -/
theorem show_person_by_id_not_found_iff :
    (∀ person_id : Int, 0 < person_id →
      ((show_person_by_id person_id = .error ⟨404, "¡This person doesn't exist!"⟩
          ↔ person_id ∉ persons) ∧
       (person_id ∈ persons →
          show_person_by_id person_id = .ok [(person_id, "It exists!")]))) ∧
    show_person_by_id 123 = .error ⟨404, "¡This person doesn't exist!"⟩ ∧
    show_person_by_id 3 = .ok [(3, "It exists!")] := by
  refine ⟨?_, rfl, rfl⟩
  intro pid _
  by_cases hm : pid ∈ persons <;> simp [show_person_by_id, hm]

/-- Witness for C3 at the spec's scenario inputs `123` (not found) and `3`
(found). -/
theorem show_person_by_id_not_found_iff_witness :
    (show_person_by_id 123 = .error ⟨404, "¡This person doesn't exist!"⟩
      ↔ (123 : Int) ∉ persons) ∧
    show_person_by_id 3 = .ok [(3, "It exists!")] :=
  ⟨(show_person_by_id_not_found_iff.1 123 (by decide)).1,
   (show_person_by_id_not_found_iff.1 3 (by decide)).2 (by decide)⟩

/-- C4: for every validated `Person` and `Location` given to update-person,
the merged result's keys are exactly the `Person` schema's fields followed by
the `Location` schema's fields (so never a field absent from both schemas),
and in general Python's `dict.update` merge gives the later dict's value
priority on any key collision. -/
theorem update_person_merges_schema_union :
    (∀ (person_id : Int) (p : Person) (l : Location),
      dictKeys (update_person person_id p l) =
        dictKeys (person_dict p) ++ dictKeys (location_dict l) ∧
      dictKeys (update_person person_id p l) =
        ["first_name", "last_name", "age", "hair_color", "is_married", "password",
         "city", "state", "country"]) ∧
    (∀ (d1 d2 : Obj) (k : String),
      getVal (dictUpdate d1 d2) k =
        match getVal d2 k with
        | some w => some w
        | none => getVal d1 k) :=
  ⟨fun _ _ _ => ⟨rfl, rfl⟩, getVal_dictUpdate⟩

/-- C9: the update-person operation declares no response model, so the merged
dict it returns still binds `password` to the submitted password value. -/
theorem update_person_response_leaks_password :
    ∀ (person_id : Int) (p : Person) (l : Location),
      getVal (update_person person_id p l) "password" = some (.str p.password) :=
  fun _ _ _ => rfl

/-- C5 counterexample: a 21-character username is accepted by the form layer
(no constraint is declared on the `username` form field), but constructing
`LoginOut(username=username)` then violates the response model's
`max_length=20`, so the operation does not answer with the success dict the
claim promises for every credential pair. -/
theorem login_21_char_username_fails :
    login "aaaaaaaaaaaaaaaaaaaaa" "pw" = .error [⟨"username", .lengthViolation⟩] ∧
    login "aaaaaaaaaaaaaaaaaaaaa" "pw" ≠
      .ok [("username", .str "aaaaaaaaaaaaaaaaaaaaa"),
           ("message", .str "Login Succesfully!")] := by
  have h0 : login "aaaaaaaaaaaaaaaaaaaaa" "pw"
      = .error [⟨"username", .lengthViolation⟩] := rfl
  refine ⟨h0, fun h => ?_⟩
  rw [h0] at h
  exact Except.noConfusion h

/-- C5 (amended): for every credential pair whose username is at most 20
characters, the login response is exactly the submitted username plus the
fixed message `"Login Succesfully!"`; and for every credential pair the
response never depends on the password (so it never echoes it). -/
theorem login_fixed_response_no_password :
    (∀ username password : String, username.length ≤ 20 →
      login username password =
        .ok [("username", .str username), ("message", .str "Login Succesfully!")]) ∧
    (∀ username p1 p2 : String, login username p1 = login username p2) := by
  constructor
  · intro u pw h
    have hc : checkStrLen ⟨none, some 20⟩ u = true := by
      simp [checkStrLen, h]
    simp [login, mkLoginOut, hc, loginOut_dict, Except.map]
  · intro u p1 p2
    rfl

/-- Witness for the amended C5 at a concrete credential pair. -/
theorem login_fixed_response_no_password_witness :
    login "miguel2021" "12345678" =
      .ok [("username", .str "miguel2021"), ("message", .str "Login Succesfully!")] :=
  login_fixed_response_no_password.1 "miguel2021" "12345678" (by decide)

/-- C6: a contact `message` shorter than 20 characters produces a length
violation naming the `message` field, a message of exactly 20 characters
produces no failure naming `message`; and in general a string of length
exactly `min_length` or `max_length` passes the length check while one below
`min_length` or one above `max_length` fails. -/
theorem contact_message_length_boundaries :
    (∀ (emailOk : String → Bool) (fn ln em msg : String), msg.length < 20 →
      VError.mk "message" .lengthViolation ∈ contactFormErrors emailOk fn ln em msg) ∧
    (∀ (emailOk : String → Bool) (fn ln em msg : String), msg.length = 20 →
      VError.mk "message" .lengthViolation ∉ contactFormErrors emailOk fn ln em msg) ∧
    (∀ (mn mx : Nat) (s : String),
      (mn ≤ mx → s.length = mn → checkStrLen ⟨some mn, some mx⟩ s = true) ∧
      (mn ≤ mx → s.length = mx → checkStrLen ⟨some mn, some mx⟩ s = true) ∧
      (s.length + 1 = mn → checkStrLen ⟨some mn, some mx⟩ s = false) ∧
      (s.length = mx + 1 → checkStrLen ⟨some mn, some mx⟩ s = false)) := by
  refine ⟨?_, ?_, ?_⟩
  · intro eok fn ln em msg h
    have hc : checkStrLen messageBounds msg = false := by
      have hn : ¬ (20 ≤ msg.length) := by omega
      simp [checkStrLen, messageBounds, hn]
    simp [contactFormErrors, hc]
  · intro eok fn ln em msg h
    have hc : checkStrLen messageBounds msg = true := by
      simp [checkStrLen, messageBounds, h]
    intro hmem
    simp [contactFormErrors, hc] at hmem
  · intro mn mx s
    refine ⟨?_, ?_, ?_, ?_⟩
    · intro h1 h2
      have ha : mn ≤ s.length := by omega
      have hb : s.length ≤ mx := by omega
      simp [checkStrLen, ha, hb]
    · intro h1 h2
      have ha : mn ≤ s.length := by omega
      have hb : s.length ≤ mx := by omega
      simp [checkStrLen, ha, hb]
    · intro h1
      have hn : ¬ (mn ≤ s.length) := by omega
      simp [checkStrLen, hn]
    · intro h1
      have hn : ¬ (s.length ≤ mx) := by omega
      simp [checkStrLen, hn]

/-- Witness for C6: a 9-character message fails naming `message`, a
20-character message passes, and the general length rule at the inclusive
lower bound. -/
theorem contact_message_length_boundaries_witness :
    VError.mk "message" .lengthViolation ∈
      contactFormErrors (fun _ => true) "Ana" "Lee" "ana@mail.co" "too short" ∧
    VError.mk "message" .lengthViolation ∉
      contactFormErrors (fun _ => true) "Ana" "Lee" "ana@mail.co" "aaaaaaaaaaaaaaaaaaaa" ∧
    checkStrLen ⟨some 1, some 20⟩ "a" = true :=
  ⟨contact_message_length_boundaries.1 (fun _ => true) "Ana" "Lee" "ana@mail.co"
      "too short" (by decide),
   contact_message_length_boundaries.2.1 (fun _ => true) "Ana" "Lee" "ana@mail.co"
      "aaaaaaaaaaaaaaaaaaaa" (by decide),
   (contact_message_length_boundaries.2.2 1 20 "a").1 (by decide) (by decide)⟩

/-- C10: for every valid contact request the response is exactly the optional
`user_agent` header value (null when absent); the validated form fields and
the `ads` cookie are discarded, so two valid requests sharing a `user_agent`
produce identical responses. -/
theorem contact_response_is_user_agent_only :
    (∀ (emailOk : String → Bool) (fn ln em msg : String) (ua ads : Option String),
      contactFormErrors emailOk fn ln em msg = [] →
      contact emailOk fn ln em msg ua ads = .ok ua) ∧
    (∀ (e1 e2 : String → Bool) (fn1 ln1 em1 msg1 fn2 ln2 em2 msg2 : String)
        (ua ads1 ads2 : Option String),
      contactFormErrors e1 fn1 ln1 em1 msg1 = [] →
      contactFormErrors e2 fn2 ln2 em2 msg2 = [] →
      contact e1 fn1 ln1 em1 msg1 ua ads1 = contact e2 fn2 ln2 em2 msg2 ua ads2) := by
  have h1 : ∀ (emailOk : String → Bool) (fn ln em msg : String) (ua ads : Option String),
      contactFormErrors emailOk fn ln em msg = [] →
      contact emailOk fn ln em msg ua ads = .ok ua := by
    intro eok fn ln em msg ua ads h
    simp [contact, h]
  refine ⟨h1, ?_⟩
  intro e1 e2 fn1 ln1 em1 msg1 fn2 ln2 em2 msg2 ua ads1 ads2 ha hb
  rw [h1 _ _ _ _ _ _ _ ha, h1 _ _ _ _ _ _ _ hb]

/-- Witness for C10: two concrete valid contact requests differing in every
form field and in the cookie give the same response, namely the `user_agent`
value; and an absent header yields a null response. -/
theorem contact_response_is_user_agent_only_witness :
    contact (fun _ => true) "Ana" "Lee" "ana@mail.co" "aaaaaaaaaaaaaaaaaaaa"
        (some "me") (some "c1") = .ok (some "me") ∧
    contact (fun _ => true) "Ana" "Lee" "ana@mail.co" "aaaaaaaaaaaaaaaaaaaa"
        (some "me") (some "c1")
      = contact (fun _ => true) "Bob" "Ray" "bob@mail.co" "bbbbbbbbbbbbbbbbbbbbbb"
        (some "me") none ∧
    contact (fun _ => true) "Ana" "Lee" "ana@mail.co" "aaaaaaaaaaaaaaaaaaaa"
        none (some "c1") = .ok none :=
  ⟨contact_response_is_user_agent_only.1 (fun _ => true) "Ana" "Lee" "ana@mail.co"
      "aaaaaaaaaaaaaaaaaaaa" (some "me") (some "c1") (by rfl),
   contact_response_is_user_agent_only.2 (fun _ => true) (fun _ => true)
      "Ana" "Lee" "ana@mail.co" "aaaaaaaaaaaaaaaaaaaa"
      "Bob" "Ray" "bob@mail.co" "bbbbbbbbbbbbbbbbbbbbbb"
      (some "me") (some "c1") none (by rfl) (by rfl),
   contact_response_is_user_agent_only.1 (fun _ => true) "Ana" "Lee" "ana@mail.co"
      "aaaaaaaaaaaaaaaaaaaa" none (some "c1") (by rfl)⟩

/-! Inversion lemmas for the per-field validators and the aggregated
`Person` validation. -/

theorem vReqStr_ok_check {f : String} {b : StrBounds} {o : Obj} {s : String}
    (h : vReqStr f b o = .ok s) : checkStrLen b s = true := by
  unfold vReqStr at h
  split at h
  all_goals try exact Except.noConfusion h
  all_goals split at h
  all_goals try exact Except.noConfusion h
  all_goals rename_i hc
  all_goals obtain rfl : _ = s := Except.ok.inj h
  all_goals exact hc

theorem vReqInt_ok_check {f : String} {b : IntBounds} {o : Obj} {n : Int}
    (h : vReqInt f b o = .ok n) : checkIntBounds b n = true := by
  unfold vReqInt at h
  split at h
  all_goals try exact Except.noConfusion h
  all_goals split at h
  all_goals try exact Except.noConfusion h
  all_goals try split at h
  all_goals try exact Except.noConfusion h
  all_goals rename_i hc
  all_goals obtain rfl : _ = n := Except.ok.inj h
  all_goals exact hc

theorem validatePerson_error_of_nonempty (o : Obj)
    (h : ¬ (errsOf (vReqStr "first_name" nameBounds o)
        ++ errsOf (vReqStr "last_name" nameBounds o)
        ++ errsOf (vReqInt "age" ageBounds o)
        ++ errsOf (vOptHairColor "hair_color" o)
        ++ errsOf (vOptBool "is_married" o)
        ++ errsOf (vReqStr "password" passwordBounds o) = [])) :
    validatePerson o = .error
      (errsOf (vReqStr "first_name" nameBounds o)
        ++ errsOf (vReqStr "last_name" nameBounds o)
        ++ errsOf (vReqInt "age" ageBounds o)
        ++ errsOf (vOptHairColor "hair_color" o)
        ++ errsOf (vOptBool "is_married" o)
        ++ errsOf (vReqStr "password" passwordBounds o)) := by
  unfold validatePerson
  rcases h1 : vReqStr "first_name" nameBounds o with e1 | a1 <;>
  rcases h2 : vReqStr "last_name" nameBounds o with e2 | a2 <;>
  rcases h3 : vReqInt "age" ageBounds o with e3 | a3 <;>
  rcases h4 : vOptHairColor "hair_color" o with e4 | a4 <;>
  rcases h5 : vOptBool "is_married" o with e5 | a5 <;>
  rcases h6 : vReqStr "password" passwordBounds o with e6 | a6 <;>
  simp_all [errsOf]

theorem validatePersonOut_ok_valid {o : Obj} {p : PersonOut}
    (h : validatePersonOut o = .ok p) :
    checkStrLen nameBounds p.first_name = true ∧
    checkStrLen nameBounds p.last_name = true ∧
    checkIntBounds ageBounds p.age = true := by
  unfold validatePersonOut at h
  rcases h1 : vReqStr "first_name" nameBounds o with e1 | a1 <;> rw [h1] at h <;>
  rcases h2 : vReqStr "last_name" nameBounds o with e2 | a2 <;> rw [h2] at h <;>
  rcases h3 : vReqInt "age" ageBounds o with e3 | a3 <;> rw [h3] at h <;>
  rcases h4 : vOptHairColor "hair_color" o with e4 | a4 <;> rw [h4] at h <;>
  rcases h5 : vOptBool "is_married" o with e5 | a5 <;> rw [h5] at h <;>
  simp at h
  subst h
  exact ⟨vReqStr_ok_check h1, vReqStr_ok_check h2, vReqInt_ok_check h3⟩

theorem validatePersonOut_dict (p : PersonOut)
    (c1 : checkStrLen nameBounds p.first_name = true)
    (c2 : checkStrLen nameBounds p.last_name = true)
    (c3 : checkIntBounds ageBounds p.age = true) :
    validatePersonOut (personOut_dict p) = .ok p := by
  have g1 : getVal (personOut_dict p) "first_name" = some (.str p.first_name) := rfl
  have g2 : getVal (personOut_dict p) "last_name" = some (.str p.last_name) := rfl
  have g3 : getVal (personOut_dict p) "age" = some (.int p.age) := rfl
  have g4 : getVal (personOut_dict p) "hair_color" = some (hairColorValue p.hair_color) := rfl
  have g5 : getVal (personOut_dict p) "is_married" = some (boolValue p.is_married) := rfl
  have e1 : vReqStr "first_name" nameBounds (personOut_dict p) = .ok p.first_name := by
    simp [vReqStr, g1, c1]
  have e2 : vReqStr "last_name" nameBounds (personOut_dict p) = .ok p.last_name := by
    simp [vReqStr, g2, c2]
  have e3 : vReqInt "age" ageBounds (personOut_dict p) = .ok p.age := by
    simp [vReqInt, g3, c3]
  have e4 : vOptHairColor "hair_color" (personOut_dict p) = .ok p.hair_color := by
    rcases hc : p.hair_color with _ | c
    · simp [vOptHairColor, g4, hc, hairColorValue]
    · rcases c <;>
        simp [vOptHairColor, g4, hc, hairColorValue, HairColor.toStr, HairColor.ofStr?]
  have e5 : vOptBool "is_married" (personOut_dict p) = .ok p.is_married := by
    rcases hm : p.is_married with _ | b <;> simp [vOptBool, g5, hm, boolValue]
  unfold validatePersonOut
  rw [e1, e2, e3, e4, e5]

theorem projectPersonOut_ok_inv {o o' : Obj} (h : projectPersonOut o = .ok o') :
    ∃ p, validatePersonOut o = .ok p ∧ o' = personOut_dict p := by
  unfold projectPersonOut at h
  rcases hv : validatePersonOut o with e | p <;> rw [hv] at h
  · exact Except.noConfusion h
  · exact ⟨p, rfl, (Except.ok.inj h).symm⟩

/-- C8: projection through the `PersonOut` output schema is idempotent — any
already-projected entity (which has exactly the five output fields, in schema
order) projects through `PersonOut` again to an identical result. -/
theorem projectPersonOut_idempotent :
    ∀ (o o' : Obj), projectPersonOut o = .ok o' →
      dictKeys o' = ["first_name", "last_name", "age", "hair_color", "is_married"] ∧
      projectPersonOut o' = .ok o' := by
  intro o o' h
  obtain ⟨p, hv, rfl⟩ := projectPersonOut_ok_inv h
  obtain ⟨c1, c2, c3⟩ := validatePersonOut_ok_valid hv
  refine ⟨rfl, ?_⟩
  unfold projectPersonOut
  rw [validatePersonOut_dict p c1 c2 c3]
  rfl

/-- Witness for C8: the projected Miguel entity re-projects to itself. -/
theorem projectPersonOut_idempotent_witness :
    dictKeys miguelOut = ["first_name", "last_name", "age", "hair_color", "is_married"] ∧
    projectPersonOut miguelOut = .ok miguelOut :=
  projectPersonOut_idempotent miguelBody miguelOut (by rfl)

/-- C7: whenever a required `Person` field (`first_name`, `last_name`, `age`
or `password`) is absent from the request body, validation fails with a
missing-field failure for that field and no validated entity is produced,
whatever the other fields contain. -/
theorem person_missing_required_field_fails :
    ∀ (o : Obj),
      (getVal o "first_name" = none →
        ∃ errs, validatePerson o = .error errs ∧ VError.mk "first_name" .missing ∈ errs) ∧
      (getVal o "last_name" = none →
        ∃ errs, validatePerson o = .error errs ∧ VError.mk "last_name" .missing ∈ errs) ∧
      (getVal o "age" = none →
        ∃ errs, validatePerson o = .error errs ∧ VError.mk "age" .missing ∈ errs) ∧
      (getVal o "password" = none →
        ∃ errs, validatePerson o = .error errs ∧ VError.mk "password" .missing ∈ errs) := by
  intro o
  refine ⟨?_, ?_, ?_, ?_⟩
  · intro h
    have hf : vReqStr "first_name" nameBounds o = .error [⟨"first_name", .missing⟩] := by
      simp [vReqStr, h]
    refine ⟨_, validatePerson_error_of_nonempty o ?_, ?_⟩
    · simp [hf, errsOf]
    · simp [hf, errsOf]
  · intro h
    have hf : vReqStr "last_name" nameBounds o = .error [⟨"last_name", .missing⟩] := by
      simp [vReqStr, h]
    refine ⟨_, validatePerson_error_of_nonempty o ?_, ?_⟩
    · simp [hf, errsOf]
    · simp [hf, errsOf]
  · intro h
    have hf : vReqInt "age" ageBounds o = .error [⟨"age", .missing⟩] := by
      simp [vReqInt, h]
    refine ⟨_, validatePerson_error_of_nonempty o ?_, ?_⟩
    · simp [hf, errsOf]
    · simp [hf, errsOf]
  · intro h
    have hf : vReqStr "password" passwordBounds o = .error [⟨"password", .missing⟩] := by
      simp [vReqStr, h]
    refine ⟨_, validatePerson_error_of_nonempty o ?_, ?_⟩
    · simp [hf, errsOf]
    · simp [hf, errsOf]

/-- Witness for C7: a body whose other fields are all valid but with
`password` absent is rejected with a missing-field failure for `password`;
an empty body is rejected with a missing-field failure for `first_name`. -/
theorem person_missing_required_field_fails_witness :
    (∃ errs, validatePerson
        [("first_name", .str "Miguel"), ("last_name", .str "Torres"), ("age", .int 25)]
      = .error errs ∧ VError.mk "password" .missing ∈ errs) ∧
    (∃ errs, validatePerson [] = .error errs ∧ VError.mk "first_name" .missing ∈ errs) :=
  ⟨(person_missing_required_field_fails
      [("first_name", .str "Miguel"), ("last_name", .str "Torres"), ("age", .int 25)]).2.2.2
    (by rfl),
   (person_missing_required_field_fails []).1 (by rfl)⟩
